import Mathlib

/-!
Verification of the local health-record store and statistics engine of the
Digital Health Tracker application.

The embedding models:
  * `dashboard.js`: `DashboardManager.calculateHealthScore` and
    `DashboardManager.detectHealthFlags`;
  * `storage.js`: `StorageManager.saveEntry`, `deleteEntry`,
    `getEntryByDate`, `getEntriesInRange`, `exportJSON`, `importJSON`.

Modelling conventions:
  * JavaScript numbers are modelled by `ℚ` (the arithmetic the claims are
    about — ratios, capped sums, comparisons — is exact in `ℚ` for the
    inputs in question, and `Math.round` is half-up rounding).
  * An optional field of a JS object is an `Option`; `undefined` is `none`.
  * Entry dates are modelled as `Nat`: the store only compares dates by
    string equality (`e.date === entry.date`) and by the parsed timestamp
    (`new Date(b.date) - new Date(a.date)`), and on the ISO `YYYY-MM-DD`
    strings the store holds, the timestamp is an order-isomorphic injective
    image of the string, so both comparisons coincide with `Nat` equality
    and order on the parsed value.
  * `localStorage` plus JSON text is modelled at the level of parsed JSON
    values (`JValue`): `JSON.parse ∘ JSON.stringify` is the identity on
    values that came from JSON, which is exactly what the store round-trips.
-/

namespace HealthTracker

/-- A parsed JSON value, for the raw-document operations of `storage.js`
(`importJSON` validates the parsed payload before any typed reading). -/
inductive JValue where
  | null : JValue
  | bool : Bool → JValue
  | num : ℚ → JValue
  | str : String → JValue
  | arr : List JValue → JValue
  | obj : List (String × JValue) → JValue
deriving Repr

/-- JS truthiness of a value (`!v` is its negation): `null`, `false`, `0`
and `""` are falsy, every array and object is truthy. -/
def JValue.truthy : JValue → Bool
  | .null => false
  | .bool b => b
  | .num q => q != 0
  | .str s => s != ""
  | .arr _ => true
  | .obj _ => true

/-- `Array.isArray`. -/
def JValue.isArr : JValue → Bool
  | .arr _ => true
  | _ => false

/-- Property access `v.k`: `none` models the JS `undefined` result (a
non-object has no properties; on `null` the access throws, which the only
caller catches, with the same observable outcome as a falsy result). -/
def JValue.getProp : JValue → String → Option JValue
  | .obj kvs, k => (kvs.find? (fun kv => kv.1 == k)).map (fun kv => kv.2)
  | _, _ => none

/-- One day's health entry (`entries[i]` of the stored document).
All metric fields are optional, `none` when absent from the JS object. -/
structure Entry where
  date : Nat
  steps : Option ℚ := none
  heartRate : Option ℚ := none
  sleep : Option ℚ := none
  water : Option ℚ := none
  calories : Option ℚ := none
  mood : Option String := none
  notes : Option String := none
deriving Repr, DecidableEq

/-- The goals map: per-metric targets; `heartRate` is a `{min, max}` pair. -/
structure Goals where
  steps : Option ℚ := none
  sleep : Option ℚ := none
  water : Option ℚ := none
  calories : Option ℚ := none
  heartRate : Option (ℚ × ℚ) := none
deriving Repr, DecidableEq

/-- JavaScript `Math.round`: nearest integer, halves rounding toward +∞. -/
def jsRound (q : ℚ) : ℤ := ⌊q + 1 / 2⌋

/-- Steps component of the health score, from `calculateHealthScore`:
included only when `latest.steps !== undefined && goals.steps` (a numeric
goal is truthy iff nonzero); `min((latest.steps / goals.steps) * 25, 25)`. -/
def stepsComponent (latest : Entry) (goals : Goals) : ℚ :=
  match latest.steps, goals.steps with
  | some s, some g => if g ≠ 0 then min (s / g * 25) 25 else 0
  | _, _ => 0

/-- Sleep component: `min((latest.sleep / goals.sleep) * 25, 25)` under the
same guard. -/
def sleepComponent (latest : Entry) (goals : Goals) : ℚ :=
  match latest.sleep, goals.sleep with
  | some s, some g => if g ≠ 0 then min (s / g * 25) 25 else 0
  | _, _ => 0

/-- Water component: `min((latest.water / goals.water) * 20, 20)`. -/
def waterComponent (latest : Entry) (goals : Goals) : ℚ :=
  match latest.water, goals.water with
  | some s, some g => if g ≠ 0 then min (s / g * 20) 20 else 0
  | _, _ => 0

/-- Heart-rate component: 15 points inside `[min, max]`, otherwise
`max(15 - |hr - (min+max)/2| / 5, 0)`; the goal is an object, hence truthy
whenever present. -/
def heartRateComponent (latest : Entry) (goals : Goals) : ℚ :=
  match latest.heartRate, goals.heartRate with
  | some hr, some (mn, mx) =>
      if mn ≤ hr ∧ hr ≤ mx then 15
      else max (15 - |hr - (mn + mx) / 2| / 5) 0
  | _, _ => 0

/-- Calories component: `min((latest.calories / goals.calories) * 15, 15)`. -/
def caloriesComponent (latest : Entry) (goals : Goals) : ℚ :=
  match latest.calories, goals.calories with
  | some s, some g => if g ≠ 0 then min (s / g * 15) 15 else 0
  | _, _ => 0

/-- `DashboardManager.calculateHealthScore(entries, goals)`: 0 on an empty
list, else the rounded sum of the five guarded components of the most
recent entry `entries[0]`. -/
def calculateHealthScore (entries : List Entry) (goals : Goals) : ℤ :=
  match entries with
  | [] => 0
  | latest :: _ =>
      jsRound (stepsComponent latest goals + sleepComponent latest goals +
        waterComponent latest goals + heartRateComponent latest goals +
        caloriesComponent latest goals)

/-- A health flag `{type, message, metric}` as pushed by `detectHealthFlags`. -/
structure Flag where
  type : String
  message : String
  metric : String
deriving Repr, DecidableEq

/-- JS comparison `o < t` on a possibly-absent field: `undefined < t` is
false (NaN comparison). -/
def jsLtOpt (o : Option ℚ) (t : ℚ) : Bool :=
  match o with
  | some v => decide (v < t)
  | none => false

/-- JS comparison `o > t` on a possibly-absent field. -/
def jsGtOpt (o : Option ℚ) (t : ℚ) : Bool :=
  match o with
  | some v => decide (v > t)
  | none => false

/-- `DashboardManager.detectHealthFlags(entries, goals)`: threshold flags on
the latest entry pushed in source order, then the 3-day look-back flag using
`e.sleep || 0` for each of the three most recent entries. The `goals`
parameter is unused by the source body. -/
def detectHealthFlags (entries : List Entry) (_goals : Goals) : List Flag :=
  match entries with
  | [] => []
  | latest :: _ =>
      (if jsLtOpt latest.sleep 6 then
        [⟨"danger", "Insufficient sleep detected (<6 hours)", "sleep"⟩] else []) ++
      (if jsGtOpt latest.heartRate 100 then
        [⟨"warning", "Elevated resting heart rate (>100 bpm)", "heartRate"⟩] else []) ++
      (if jsLtOpt latest.water 3 then
        [⟨"warning", "Low water intake (<3 glasses)", "water"⟩] else []) ++
      (if jsLtOpt latest.steps 2000 then
        [⟨"warning", "Very low activity level (<2000 steps)", "steps"⟩] else []) ++
      (if decide (3 ≤ entries.length) &&
          (entries.take 3).all (fun e => decide (e.sleep.getD 0 < 6)) then
        [⟨"danger", "Chronic sleep deprivation detected (3+ days)", "sleep"⟩] else [])

/-- The flag rules as the specification words them: the four latest-entry
threshold rules in order, then the chronic rule when there are at least 3
entries and the three most recent all have sleep < 6 (each read as a present
sleep value below 6). Written from the spec for the refinement claim. -/
def specDetectHealthFlags (entries : List Entry) (_goals : Goals) : List Flag :=
  match entries with
  | [] => []
  | latest :: _ =>
      (if jsLtOpt latest.sleep 6 then
        [⟨"danger", "Insufficient sleep detected (<6 hours)", "sleep"⟩] else []) ++
      (if jsGtOpt latest.heartRate 100 then
        [⟨"warning", "Elevated resting heart rate (>100 bpm)", "heartRate"⟩] else []) ++
      (if jsLtOpt latest.water 3 then
        [⟨"warning", "Low water intake (<3 glasses)", "water"⟩] else []) ++
      (if jsLtOpt latest.steps 2000 then
        [⟨"warning", "Very low activity level (<2000 steps)", "steps"⟩] else []) ++
      (if decide (3 ≤ entries.length) &&
          (entries.take 3).all (fun e => jsLtOpt e.sleep 6) then
        [⟨"danger", "Chronic sleep deprivation detected (3+ days)", "sleep"⟩] else [])

/-- The parsed stored health document `{user, goals, settings, entries}`. -/
structure HealthDoc where
  user : JValue := .obj []
  goals : Goals := {}
  settings : JValue := .obj []
  entries : List Entry := []
deriving Repr

/-- The JS object spread `{ ...old, ...fresh }` in `saveEntry`: fields
present on the fresh entry win, fields absent from it keep the old value
(`date` is always present on the entry being saved). -/
def mergeEntry (old fresh : Entry) : Entry :=
  { date := fresh.date
    steps := fresh.steps <|> old.steps
    heartRate := fresh.heartRate <|> old.heartRate
    sleep := fresh.sleep <|> old.sleep
    water := fresh.water <|> old.water
    calories := fresh.calories <|> old.calories
    mood := fresh.mood <|> old.mood
    notes := fresh.notes <|> old.notes }

/-- The `findIndex`/assign/`push` part of `saveEntry`: replace the first
entry whose date matches (merging the new fields over it), or append at the
end when no date matches. -/
def upsertEntry (entries : List Entry) (entry : Entry) : List Entry :=
  match entries with
  | [] => [entry]
  | e :: rest =>
      if e.date = entry.date then mergeEntry e entry :: rest
      else e :: upsertEntry rest entry

/-- The sort order of `entries.sort((a, b) => new Date(b.date) - new Date(a.date))`:
`a` may precede `b` iff `b`'s date is not after `a`'s. -/
def entryDateGe (a b : Entry) : Prop := b.date ≤ a.date

instance : DecidableRel entryDateGe := fun _ b => Nat.decLe b.date _

instance : IsTotal Entry entryDateGe := ⟨fun a b => le_total b.date a.date⟩

instance : IsTrans Entry entryDateGe := ⟨fun _ _ _ h1 h2 => le_trans h2 h1⟩

/-- The in-place `entries.sort(...)` call: a stable comparison sort by date
descending. -/
def entriesSortDesc (l : List Entry) : List Entry := l.insertionSort entryDateGe

/-- `StorageManager.saveEntry(entry)`: upsert by date, then re-sort newest
first, then persist the document. -/
def saveEntry (doc : HealthDoc) (entry : Entry) : HealthDoc :=
  { doc with entries := entriesSortDesc (upsertEntry doc.entries entry) }

/-- `StorageManager.deleteEntry(date)`: keep only the entries whose date
differs. -/
def deleteEntry (doc : HealthDoc) (date : Nat) : HealthDoc :=
  { doc with entries := doc.entries.filter (fun e => e.date != date) }

/-- `StorageManager.getEntryByDate(date)`: first entry with that date. -/
def getEntryByDate (doc : HealthDoc) (date : Nat) : Option Entry :=
  doc.entries.find? (fun e => e.date == date)

/-- `StorageManager.getEntriesInRange(startDate, endDate)`: inclusive filter
by parsed date comparison. -/
def getEntriesInRange (doc : HealthDoc) (startDate endDate : Nat) : List Entry :=
  doc.entries.filter (fun e => decide (startDate ≤ e.date) && decide (e.date ≤ endDate))

/-- The persisted side of the store: `localStorage[STORAGE_KEY]`, as the
parsed JSON value it holds (`none` when the key is absent). -/
structure StoreState where
  stored : Option JValue
deriving Repr

/-- The structured result returned by `importJSON`. -/
structure ImportResult where
  success : Bool
  message : String
deriving Repr, DecidableEq

/-- `StorageManager.importJSON(jsonString)`, at the level of the parsed
payload: the argument is `JSON.parse(jsonString)` (`none` when parsing
throws, which the function catches). The payload is rejected — with a
`{success:false, message}` result and no mutation — unless `data.entries`
is truthy and an array; otherwise the whole payload replaces the stored
document via `saveAll`. -/
def importJSON (parsed : Option JValue) (st : StoreState) : StoreState × ImportResult :=
  match parsed with
  | none => (st, ⟨false, "Unexpected token in JSON"⟩)
  | some data =>
      match data.getProp "entries" with
      | some e =>
          if e.truthy && e.isArr then
            ({ st with stored := some data }, ⟨true, "Data imported successfully"⟩)
          else (st, ⟨false, "Invalid data format"⟩)
      | none => (st, ⟨false, "Invalid data format"⟩)

/-- `StorageManager.exportJSON()` followed by `JSON.parse` of the produced
text: `getAll()` yields the stored value (or `null` when absent), and
`JSON.parse(JSON.stringify(v, null, 2))` is the identity on JSON values, so
the parse of the exported text is the stored value itself (`JSON.stringify(null)`
parses back to JSON `null`). -/
def exportJSONParsed (st : StoreState) : Option JValue :=
  match st.stored with
  | some d => some d
  | none => some .null

/-! ### Helper lemmas for the health score -/

/-- Nonnegativity of the ratio-metric fields an entry carries. -/
def EntryNonneg (e : Entry) : Prop :=
  (∀ v, e.steps = some v → 0 ≤ v) ∧ (∀ v, e.sleep = some v → 0 ≤ v) ∧
  (∀ v, e.water = some v → 0 ≤ v) ∧ (∀ v, e.calories = some v → 0 ≤ v)

/-- Nonnegativity of the ratio-metric goals a goals map carries. -/
def GoalsNonneg (g : Goals) : Prop :=
  (∀ v, g.steps = some v → 0 ≤ v) ∧ (∀ v, g.sleep = some v → 0 ≤ v) ∧
  (∀ v, g.water = some v → 0 ≤ v) ∧ (∀ v, g.calories = some v → 0 ≤ v)

theorem ratio_branch_bounds (s g cap : ℚ) (hs : 0 ≤ s) (hg : 0 ≤ g) (hcap : 0 ≤ cap) :
    0 ≤ (if g ≠ 0 then min (s / g * cap) cap else 0) ∧
      (if g ≠ 0 then min (s / g * cap) cap else 0) ≤ cap := by
  split
  · rename_i hne
    refine ⟨le_min (by positivity) hcap, min_le_right _ _⟩
  · exact ⟨le_refl 0, hcap⟩

theorem stepsComponent_bounds (e : Entry) (g : Goals)
    (he : ∀ v, e.steps = some v → 0 ≤ v) (hg : ∀ v, g.steps = some v → 0 ≤ v) :
    0 ≤ stepsComponent e g ∧ stepsComponent e g ≤ 25 := by
  unfold stepsComponent
  cases hs : e.steps with
  | none => exact ⟨le_refl 0, by norm_num⟩
  | some s =>
    cases hgs : g.steps with
    | none => exact ⟨le_refl 0, by norm_num⟩
    | some gv => exact ratio_branch_bounds s gv 25 (he s hs) (hg gv hgs) (by norm_num)

theorem sleepComponent_bounds (e : Entry) (g : Goals)
    (he : ∀ v, e.sleep = some v → 0 ≤ v) (hg : ∀ v, g.sleep = some v → 0 ≤ v) :
    0 ≤ sleepComponent e g ∧ sleepComponent e g ≤ 25 := by
  unfold sleepComponent
  cases hs : e.sleep with
  | none => exact ⟨le_refl 0, by norm_num⟩
  | some s =>
    cases hgs : g.sleep with
    | none => exact ⟨le_refl 0, by norm_num⟩
    | some gv => exact ratio_branch_bounds s gv 25 (he s hs) (hg gv hgs) (by norm_num)

theorem waterComponent_bounds (e : Entry) (g : Goals)
    (he : ∀ v, e.water = some v → 0 ≤ v) (hg : ∀ v, g.water = some v → 0 ≤ v) :
    0 ≤ waterComponent e g ∧ waterComponent e g ≤ 20 := by
  unfold waterComponent
  cases hs : e.water with
  | none => exact ⟨le_refl 0, by norm_num⟩
  | some s =>
    cases hgs : g.water with
    | none => exact ⟨le_refl 0, by norm_num⟩
    | some gv => exact ratio_branch_bounds s gv 20 (he s hs) (hg gv hgs) (by norm_num)

theorem caloriesComponent_bounds (e : Entry) (g : Goals)
    (he : ∀ v, e.calories = some v → 0 ≤ v) (hg : ∀ v, g.calories = some v → 0 ≤ v) :
    0 ≤ caloriesComponent e g ∧ caloriesComponent e g ≤ 15 := by
  unfold caloriesComponent
  cases hs : e.calories with
  | none => exact ⟨le_refl 0, by norm_num⟩
  | some s =>
    cases hgs : g.calories with
    | none => exact ⟨le_refl 0, by norm_num⟩
    | some gv => exact ratio_branch_bounds s gv 15 (he s hs) (hg gv hgs) (by norm_num)

theorem heartRateComponent_bounds (e : Entry) (g : Goals) :
    0 ≤ heartRateComponent e g ∧ heartRateComponent e g ≤ 15 := by
  unfold heartRateComponent
  cases e.heartRate with
  | none => exact ⟨le_refl 0, by norm_num⟩
  | some hr =>
    cases g.heartRate with
    | none => exact ⟨le_refl 0, by norm_num⟩
    | some p =>
      obtain ⟨mn, mx⟩ := p
      dsimp only
      split
      · exact ⟨by norm_num, le_refl 15⟩
      · constructor
        · exact le_max_right _ _
        · refine max_le ?_ (by norm_num)
          have h5 : (0:ℚ) ≤ |hr - (mn + mx) / 2| / 5 := by positivity
          linarith

theorem jsRound_nonneg (q : ℚ) (h : 0 ≤ q) : 0 ≤ jsRound q := by
  unfold jsRound
  exact Int.floor_nonneg.mpr (by linarith)

theorem jsRound_le_100 (q : ℚ) (h : q ≤ 100) : jsRound q ≤ 100 := by
  unfold jsRound
  have h1 : ⌊q + 1 / 2⌋ ≤ ⌊(100 : ℚ) + 1 / 2⌋ := Int.floor_le_floor (by linarith)
  have h2 : ⌊(100 : ℚ) + 1 / 2⌋ = 100 := by
    rw [Int.floor_eq_iff]
    norm_num
  omega

/-- C1. For every entry list with nonnegative metric values and every goals
map with nonnegative goal values, `calculateHealthScore` returns an integer
in `[0, 100]`: each capped component lies in `[0, its cap]`, the caps sum to
`25+25+20+15+15 = 100`, and the rounded sum stays within the interval. (The
result is an integer by the return type of the embedding, mirroring
`Math.round`.) -/
theorem calculateHealthScore_bounds (entries : List Entry) (goals : Goals)
    (he : ∀ e ∈ entries, EntryNonneg e) (hg : GoalsNonneg goals) :
    0 ≤ calculateHealthScore entries goals ∧ calculateHealthScore entries goals ≤ 100 := by
  cases entries with
  | nil => exact ⟨le_refl 0, by norm_num [calculateHealthScore]⟩
  | cons latest rest =>
    obtain ⟨he1, he2, he3, he4⟩ := he latest (List.mem_cons_self _ _)
    obtain ⟨hg1, hg2, hg3, hg4⟩ := hg
    obtain ⟨b1l, b1r⟩ := stepsComponent_bounds latest goals he1 hg1
    obtain ⟨b2l, b2r⟩ := sleepComponent_bounds latest goals he2 hg2
    obtain ⟨b3l, b3r⟩ := waterComponent_bounds latest goals he3 hg3
    obtain ⟨b4l, b4r⟩ := heartRateComponent_bounds latest goals
    obtain ⟨b5l, b5r⟩ := caloriesComponent_bounds latest goals he4 hg4
    unfold calculateHealthScore
    constructor
    · exact jsRound_nonneg _ (by linarith)
    · exact jsRound_le_100 _ (by linarith)

/-- C1 witness: a concrete instantiation of the bounds theorem. -/
theorem calculateHealthScore_bounds_witness :
    0 ≤ calculateHealthScore [{ date := 3, steps := some 12000 }] { steps := some 10000 } ∧
      calculateHealthScore [{ date := 3, steps := some 12000 }] { steps := some 10000 } ≤ 100 := by
  refine calculateHealthScore_bounds _ _ ?_ ?_
  · intro e hmem
    simp only [List.mem_singleton] at hmem
    subst hmem
    exact ⟨by rintro v ⟨rfl⟩; norm_num, by rintro v ⟨⟩, by rintro v ⟨⟩, by rintro v ⟨⟩⟩
  · exact ⟨by rintro v ⟨rfl⟩; norm_num, by rintro v ⟨⟩, by rintro v ⟨⟩, by rintro v ⟨⟩⟩

/-- C1 counterexample: with a negative stored metric the claim's universal
quantification fails — the score of the single entry `{steps: -10000}`
against goal `{steps: 10000}` is `-25`, outside `[0, 100]`. -/
theorem calculateHealthScore_bounds_cex :
    calculateHealthScore [{ date := 0, steps := some (-10000) }] { steps := some 10000 } = -25 ∧
      calculateHealthScore [{ date := 0, steps := some (-10000) }] { steps := some 10000 } < 0 := by
  norm_num [calculateHealthScore, jsRound, stepsComponent, sleepComponent,
    waterComponent, heartRateComponent, caloriesComponent]

theorem jsRound_mono (a b : ℚ) (h : a ≤ b) : jsRound a ≤ jsRound b :=
  Int.floor_le_floor (by linarith)

theorem ratio_branch_mono (s t g cap : ℚ) (hg : 0 ≤ g) (hcap : 0 ≤ cap) (hst : s ≤ t) :
    (if g ≠ 0 then min (s / g * cap) cap else 0) ≤
      (if g ≠ 0 then min (t / g * cap) cap else 0) := by
  split
  · rename_i hne
    have hpos : 0 < g := lt_of_le_of_ne hg (Ne.symm hne)
    gcongr
  · exact le_refl 0

theorem hr_branch_mono (hr hr' mn mx : ℚ)
    (hdev : |hr' - (mn + mx) / 2| ≤ |hr - (mn + mx) / 2|) :
    (if mn ≤ hr ∧ hr ≤ mx then (15 : ℚ) else max (15 - |hr - (mn + mx) / 2| / 5) 0) ≤
      (if mn ≤ hr' ∧ hr' ≤ mx then (15 : ℚ) else max (15 - |hr' - (mn + mx) / 2| / 5) 0) := by
  have hrange : ∀ x : ℚ, (mn ≤ x ∧ x ≤ mx) ↔ |x - (mn + mx) / 2| ≤ (mx - mn) / 2 := by
    intro x
    rw [abs_le]
    constructor
    · rintro ⟨h1, h2⟩
      constructor <;> linarith
    · rintro ⟨h1, h2⟩
      constructor <;> linarith
  by_cases h2 : mn ≤ hr' ∧ hr' ≤ mx
  · rw [if_pos h2]
    split
    · exact le_refl 15
    · refine max_le ?_ (by norm_num)
      have h5 : (0:ℚ) ≤ |hr - (mn + mx) / 2| / 5 := by positivity
      linarith
  · rw [if_neg h2]
    have hout2 : (mx - mn) / 2 < |hr' - (mn + mx) / 2| := by
      by_contra hc
      push_neg at hc
      exact h2 ((hrange hr').mpr hc)
    have hout1 : ¬(mn ≤ hr ∧ hr ≤ mx) := by
      intro hin
      have := (hrange hr).mp hin
      linarith
    rw [if_neg hout1]
    refine max_le_max ?_ (le_refl 0)
    have h6 : |hr' - (mn + mx) / 2| / 5 ≤ |hr - (mn + mx) / 2| / 5 := by linarith
    linarith

theorem stepsComponent_mono (e : Entry) (g : Goals)
    (hg : ∀ v, g.steps = some v → 0 ≤ v) (x y : ℚ) (hxy : x ≤ y) :
    stepsComponent { e with steps := some x } g ≤
      stepsComponent { e with steps := some y } g := by
  unfold stepsComponent
  dsimp only
  cases hgs : g.steps with
  | none => exact le_refl 0
  | some gv => exact ratio_branch_mono x y gv 25 (hg gv hgs) (by norm_num) hxy

theorem sleepComponent_mono (e : Entry) (g : Goals)
    (hg : ∀ v, g.sleep = some v → 0 ≤ v) (x y : ℚ) (hxy : x ≤ y) :
    sleepComponent { e with sleep := some x } g ≤
      sleepComponent { e with sleep := some y } g := by
  unfold sleepComponent
  dsimp only
  cases hgs : g.sleep with
  | none => exact le_refl 0
  | some gv => exact ratio_branch_mono x y gv 25 (hg gv hgs) (by norm_num) hxy

theorem waterComponent_mono (e : Entry) (g : Goals)
    (hg : ∀ v, g.water = some v → 0 ≤ v) (x y : ℚ) (hxy : x ≤ y) :
    waterComponent { e with water := some x } g ≤
      waterComponent { e with water := some y } g := by
  unfold waterComponent
  dsimp only
  cases hgs : g.water with
  | none => exact le_refl 0
  | some gv => exact ratio_branch_mono x y gv 20 (hg gv hgs) (by norm_num) hxy

theorem caloriesComponent_mono (e : Entry) (g : Goals)
    (hg : ∀ v, g.calories = some v → 0 ≤ v) (x y : ℚ) (hxy : x ≤ y) :
    caloriesComponent { e with calories := some x } g ≤
      caloriesComponent { e with calories := some y } g := by
  unfold caloriesComponent
  dsimp only
  cases hgs : g.calories with
  | none => exact le_refl 0
  | some gv => exact ratio_branch_mono x y gv 15 (hg gv hgs) (by norm_num) hxy

theorem heartRateComponent_mono (e : Entry) (g : Goals) (x y mn mx : ℚ)
    (hgh : g.heartRate = some (mn, mx))
    (hdev : |y - (mn + mx) / 2| ≤ |x - (mn + mx) / 2|) :
    heartRateComponent { e with heartRate := some x } g ≤
      heartRateComponent { e with heartRate := some y } g := by
  unfold heartRateComponent
  dsimp only
  rw [hgh]
  exact hr_branch_mono x y mn mx hdev

/-- C2 (amended: goal values assumed nonnegative). For a nonempty entry list
and a goals map whose ratio goals are nonnegative, `calculateHealthScore` is
monotonically non-decreasing in each metric of the latest entry, holding
everything else fixed: increasing `steps`, `sleep`, `water` or `calories`
never decreases the score, and moving `heartRate` toward the midpoint of
`goals.heartRate.{min, max}` never decreases the score. -/
theorem calculateHealthScore_monotone (e : Entry) (rest : List Entry) (g : Goals)
    (hg : GoalsNonneg g) :
    (∀ x y : ℚ, x ≤ y →
      calculateHealthScore ({ e with steps := some x } :: rest) g ≤
        calculateHealthScore ({ e with steps := some y } :: rest) g) ∧
    (∀ x y : ℚ, x ≤ y →
      calculateHealthScore ({ e with sleep := some x } :: rest) g ≤
        calculateHealthScore ({ e with sleep := some y } :: rest) g) ∧
    (∀ x y : ℚ, x ≤ y →
      calculateHealthScore ({ e with water := some x } :: rest) g ≤
        calculateHealthScore ({ e with water := some y } :: rest) g) ∧
    (∀ x y : ℚ, x ≤ y →
      calculateHealthScore ({ e with calories := some x } :: rest) g ≤
        calculateHealthScore ({ e with calories := some y } :: rest) g) ∧
    (∀ x y mn mx : ℚ, g.heartRate = some (mn, mx) →
      |y - (mn + mx) / 2| ≤ |x - (mn + mx) / 2| →
      calculateHealthScore ({ e with heartRate := some x } :: rest) g ≤
        calculateHealthScore ({ e with heartRate := some y } :: rest) g) := by
  obtain ⟨hg1, hg2, hg3, hg4⟩ := hg
  refine ⟨?_, ?_, ?_, ?_, ?_⟩
  · intro x y hxy
    simp only [calculateHealthScore]
    apply jsRound_mono
    have h1 := stepsComponent_mono e g hg1 x y hxy
    have h2 : sleepComponent { e with steps := some x } g =
        sleepComponent { e with steps := some y } g := rfl
    have h3 : waterComponent { e with steps := some x } g =
        waterComponent { e with steps := some y } g := rfl
    have h4 : heartRateComponent { e with steps := some x } g =
        heartRateComponent { e with steps := some y } g := rfl
    have h5 : caloriesComponent { e with steps := some x } g =
        caloriesComponent { e with steps := some y } g := rfl
    linarith
  · intro x y hxy
    simp only [calculateHealthScore]
    apply jsRound_mono
    have h1 := sleepComponent_mono e g hg2 x y hxy
    have h2 : stepsComponent { e with sleep := some x } g =
        stepsComponent { e with sleep := some y } g := rfl
    have h3 : waterComponent { e with sleep := some x } g =
        waterComponent { e with sleep := some y } g := rfl
    have h4 : heartRateComponent { e with sleep := some x } g =
        heartRateComponent { e with sleep := some y } g := rfl
    have h5 : caloriesComponent { e with sleep := some x } g =
        caloriesComponent { e with sleep := some y } g := rfl
    linarith
  · intro x y hxy
    simp only [calculateHealthScore]
    apply jsRound_mono
    have h1 := waterComponent_mono e g hg3 x y hxy
    have h2 : stepsComponent { e with water := some x } g =
        stepsComponent { e with water := some y } g := rfl
    have h3 : sleepComponent { e with water := some x } g =
        sleepComponent { e with water := some y } g := rfl
    have h4 : heartRateComponent { e with water := some x } g =
        heartRateComponent { e with water := some y } g := rfl
    have h5 : caloriesComponent { e with water := some x } g =
        caloriesComponent { e with water := some y } g := rfl
    linarith
  · intro x y hxy
    simp only [calculateHealthScore]
    apply jsRound_mono
    have h1 := caloriesComponent_mono e g hg4 x y hxy
    have h2 : stepsComponent { e with calories := some x } g =
        stepsComponent { e with calories := some y } g := rfl
    have h3 : sleepComponent { e with calories := some x } g =
        sleepComponent { e with calories := some y } g := rfl
    have h4 : heartRateComponent { e with calories := some x } g =
        heartRateComponent { e with calories := some y } g := rfl
    have h5 : waterComponent { e with calories := some x } g =
        waterComponent { e with calories := some y } g := rfl
    linarith
  · intro x y mn mx hgh hdev
    simp only [calculateHealthScore]
    apply jsRound_mono
    have h1 := heartRateComponent_mono e g x y mn mx hgh hdev
    have h2 : stepsComponent { e with heartRate := some x } g =
        stepsComponent { e with heartRate := some y } g := rfl
    have h3 : sleepComponent { e with heartRate := some x } g =
        sleepComponent { e with heartRate := some y } g := rfl
    have h4 : waterComponent { e with heartRate := some x } g =
        waterComponent { e with heartRate := some y } g := rfl
    have h5 : caloriesComponent { e with heartRate := some x } g =
        caloriesComponent { e with heartRate := some y } g := rfl
    linarith

/-- C2 witness: increasing the steps of the latest entry from 0 to 5000
against the nonnegative goal `{steps: 10000}` does not decrease the score. -/
theorem calculateHealthScore_monotone_witness :
    calculateHealthScore [{ date := 0, steps := some 0 }] { steps := some 10000 } ≤
      calculateHealthScore [{ date := 0, steps := some 5000 }] { steps := some 10000 } := by
  have h := (calculateHealthScore_monotone { date := 0 } [] { steps := some 10000 }
    ⟨by rintro v ⟨rfl⟩; norm_num, by rintro v ⟨⟩, by rintro v ⟨⟩, by rintro v ⟨⟩⟩).1
    0 5000 (by norm_num)
  exact h

/-- C2 counterexample: over arbitrary goals maps the claim fails — with the
(truthy, negative) goal `{steps: -10000}` increasing the latest entry's
steps from 0 to 5000 strictly decreases the score, from 0 to -12. -/
theorem calculateHealthScore_monotone_cex :
    calculateHealthScore [{ date := 0, steps := some 0 }] { steps := some (-10000) } = 0 ∧
      calculateHealthScore [{ date := 0, steps := some 5000 }] { steps := some (-10000) } = -12 ∧
      calculateHealthScore [{ date := 0, steps := some 5000 }] { steps := some (-10000) } <
        calculateHealthScore [{ date := 0, steps := some 0 }] { steps := some (-10000) } := by
  norm_num [calculateHealthScore, jsRound, stepsComponent, sleepComponent,
    waterComponent, heartRateComponent, caloriesComponent]

/-- C3 counterexample: for the single entry `{date:"2024-01-04", steps:5000}`
and goals `{steps:10000, sleep:8}` the code returns 13, not the 12 the claim
states — `Math.round` rounds the half `12.5` up. -/
theorem calculateHealthScore_missing_sleep_cex :
    calculateHealthScore [{ date := 4, steps := some 5000 }]
        { steps := some 10000, sleep := some 8 } ≠ 12 := by
  norm_num [calculateHealthScore, jsRound, stepsComponent, sleepComponent,
    waterComponent, heartRateComponent, caloriesComponent]

/-- C3 (amended: the score is 13, not 12). For the single entry
`{date:"2024-01-04", steps:5000}` and goals `{steps:10000, sleep:8}`: the
steps component is `min(5000/10000*25, 25) = 12.5`, the sleep component is
omitted because the entry has no sleep field, no other component
contributes, and `Math.round(12.5)` rounds the half toward +∞, so
`calculateHealthScore` returns 13. -/
theorem calculateHealthScore_missing_sleep :
    stepsComponent { date := 4, steps := some 5000 }
        { steps := some 10000, sleep := some 8 } = 25 / 2 ∧
      sleepComponent { date := 4, steps := some 5000 }
        { steps := some 10000, sleep := some 8 } = 0 ∧
      waterComponent { date := 4, steps := some 5000 }
        { steps := some 10000, sleep := some 8 } = 0 ∧
      heartRateComponent { date := 4, steps := some 5000 }
        { steps := some 10000, sleep := some 8 } = 0 ∧
      caloriesComponent { date := 4, steps := some 5000 }
        { steps := some 10000, sleep := some 8 } = 0 ∧
      calculateHealthScore [{ date := 4, steps := some 5000 }]
        { steps := some 10000, sleep := some 8 } = 13 := by
  norm_num [calculateHealthScore, jsRound, stepsComponent, sleepComponent,
    waterComponent, heartRateComponent, caloriesComponent]

theorem stepsComponent_goal_zero (e : Entry) (g : Goals) (h : g.steps = some 0) :
    stepsComponent e g = 0 := by
  unfold stepsComponent
  rw [h]
  cases e.steps <;> simp

theorem stepsComponent_goal_none (e : Entry) (g : Goals) (h : g.steps = none) :
    stepsComponent e g = 0 := by
  unfold stepsComponent
  rw [h]
  cases e.steps <;> simp

theorem sleepComponent_goal_zero (e : Entry) (g : Goals) (h : g.sleep = some 0) :
    sleepComponent e g = 0 := by
  unfold sleepComponent
  rw [h]
  cases e.sleep <;> simp

theorem sleepComponent_goal_none (e : Entry) (g : Goals) (h : g.sleep = none) :
    sleepComponent e g = 0 := by
  unfold sleepComponent
  rw [h]
  cases e.sleep <;> simp

theorem waterComponent_goal_zero (e : Entry) (g : Goals) (h : g.water = some 0) :
    waterComponent e g = 0 := by
  unfold waterComponent
  rw [h]
  cases e.water <;> simp

theorem waterComponent_goal_none (e : Entry) (g : Goals) (h : g.water = none) :
    waterComponent e g = 0 := by
  unfold waterComponent
  rw [h]
  cases e.water <;> simp

theorem caloriesComponent_goal_zero (e : Entry) (g : Goals) (h : g.calories = some 0) :
    caloriesComponent e g = 0 := by
  unfold caloriesComponent
  rw [h]
  cases e.calories <;> simp

theorem caloriesComponent_goal_none (e : Entry) (g : Goals) (h : g.calories = none) :
    caloriesComponent e g = 0 := by
  unfold caloriesComponent
  rw [h]
  cases e.calories <;> simp

theorem stepsComponent_congr (e : Entry) (g g' : Goals) (h : g.steps = g'.steps) :
    stepsComponent e g = stepsComponent e g' := by
  unfold stepsComponent
  rw [h]

theorem sleepComponent_congr (e : Entry) (g g' : Goals) (h : g.sleep = g'.sleep) :
    sleepComponent e g = sleepComponent e g' := by
  unfold sleepComponent
  rw [h]

theorem waterComponent_congr (e : Entry) (g g' : Goals) (h : g.water = g'.water) :
    waterComponent e g = waterComponent e g' := by
  unfold waterComponent
  rw [h]

theorem heartRateComponent_congr (e : Entry) (g g' : Goals) (h : g.heartRate = g'.heartRate) :
    heartRateComponent e g = heartRateComponent e g' := by
  unfold heartRateComponent
  rw [h]

theorem caloriesComponent_congr (e : Entry) (g g' : Goals) (h : g.calories = g'.calories) :
    caloriesComponent e g = caloriesComponent e g' := by
  unfold caloriesComponent
  rw [h]

/-- C10. A ratio component whose goal value is 0 is excluded from the score
even though the goal field is defined and the entry field may be present: a
zero goal is falsy in the guard `latest.x !== undefined && goals.x`, so it
behaves exactly as an unset goal — for each of steps, sleep, water and
calories the score with that goal set to 0 equals the score with that goal
absent, and no division by the zero goal is ever performed. (The
`heartRate` goal is a `{min, max}` object, which is always truthy when
present, so no zero case arises for it; totality of the function over all
entry/goal inputs is the totality of this definition.) -/
theorem calculateHealthScore_zero_goal (entries : List Entry) (g : Goals) :
    calculateHealthScore entries { g with steps := some 0 } =
        calculateHealthScore entries { g with steps := none } ∧
      calculateHealthScore entries { g with sleep := some 0 } =
        calculateHealthScore entries { g with sleep := none } ∧
      calculateHealthScore entries { g with water := some 0 } =
        calculateHealthScore entries { g with water := none } ∧
      calculateHealthScore entries { g with calories := some 0 } =
        calculateHealthScore entries { g with calories := none } := by
  cases entries with
  | nil => exact ⟨rfl, rfl, rfl, rfl⟩
  | cons latest rest =>
    refine ⟨?_, ?_, ?_, ?_⟩
    · simp only [calculateHealthScore]
      rw [stepsComponent_goal_zero latest _ rfl, stepsComponent_goal_none latest _ rfl,
        sleepComponent_congr latest { g with steps := some 0 } { g with steps := none } rfl,
        waterComponent_congr latest { g with steps := some 0 } { g with steps := none } rfl,
        heartRateComponent_congr latest { g with steps := some 0 } { g with steps := none } rfl,
        caloriesComponent_congr latest { g with steps := some 0 } { g with steps := none } rfl]
    · simp only [calculateHealthScore]
      rw [sleepComponent_goal_zero latest _ rfl, sleepComponent_goal_none latest _ rfl,
        stepsComponent_congr latest { g with sleep := some 0 } { g with sleep := none } rfl,
        waterComponent_congr latest { g with sleep := some 0 } { g with sleep := none } rfl,
        heartRateComponent_congr latest { g with sleep := some 0 } { g with sleep := none } rfl,
        caloriesComponent_congr latest { g with sleep := some 0 } { g with sleep := none } rfl]
    · simp only [calculateHealthScore]
      rw [waterComponent_goal_zero latest _ rfl, waterComponent_goal_none latest _ rfl,
        stepsComponent_congr latest { g with water := some 0 } { g with water := none } rfl,
        sleepComponent_congr latest { g with water := some 0 } { g with water := none } rfl,
        heartRateComponent_congr latest { g with water := some 0 } { g with water := none } rfl,
        caloriesComponent_congr latest { g with water := some 0 } { g with water := none } rfl]
    · simp only [calculateHealthScore]
      rw [caloriesComponent_goal_zero latest _ rfl, caloriesComponent_goal_none latest _ rfl,
        stepsComponent_congr latest { g with calories := some 0 } { g with calories := none } rfl,
        sleepComponent_congr latest { g with calories := some 0 } { g with calories := none } rfl,
        waterComponent_congr latest { g with calories := some 0 } { g with calories := none } rfl,
        heartRateComponent_congr latest { g with calories := some 0 } { g with calories := none } rfl]

theorem all_congr_mem {α : Type} (l : List α) (f g : α → Bool)
    (h : ∀ x ∈ l, f x = g x) : l.all f = l.all g := by
  induction l with
  | nil => rfl
  | cons a t ih =>
    simp only [List.all_cons, h a (List.mem_cons_self a t),
      ih (fun x hx => h x (List.mem_cons_of_mem a hx))]

/-- C8. `detectHealthFlags` applies to the latest entry exactly the four
threshold rules in source order (sleep < 6 danger, heartRate > 100 warning,
water < 3 warning, steps < 2000 warning) followed by the chronic 3-day
look-back danger flag, and multiple flags may fire simultaneously in that
fixed order: whenever the three most recent entries carry a sleep value the
output equals the ordered rule list of the specification, and for the latest
entry `{sleep:5, heartRate:60, water:4, steps:5000}` with three most recent
entries all having sleep < 6 the output is exactly the single-day sleep
danger flag followed by the chronic sleep danger flag. -/
theorem detectHealthFlags_rules :
    (∀ (entries : List Entry) (goals : Goals),
      (3 ≤ entries.length → ∀ e ∈ entries.take 3, e.sleep.isSome) →
      detectHealthFlags entries goals = specDetectHealthFlags entries goals) ∧
    detectHealthFlags
        [{ date := 3, sleep := some 5, heartRate := some 60, water := some 4,
           steps := some 5000 },
         { date := 2, sleep := some 5 }, { date := 1, sleep := some 4 }] {} =
      [⟨"danger", "Insufficient sleep detected (<6 hours)", "sleep"⟩,
       ⟨"danger", "Chronic sleep deprivation detected (3+ days)", "sleep"⟩] := by
  constructor
  · intro entries goals hpres
    cases entries with
    | nil => rfl
    | cons latest rest =>
      unfold detectHealthFlags specDetectHealthFlags
      by_cases h3 : 3 ≤ (latest :: rest).length
      · have hall : ((latest :: rest).take 3).all (fun e => decide (e.sleep.getD 0 < 6)) =
            ((latest :: rest).take 3).all (fun e => jsLtOpt e.sleep 6) := by
          apply all_congr_mem
          intro x hx
          obtain ⟨v, hv⟩ := Option.isSome_iff_exists.mp (hpres h3 x hx)
          rw [hv]
          simp [jsLtOpt]
        rw [hall]
      · have hd : decide (3 ≤ (latest :: rest).length) = false := decide_eq_false h3
        rw [hd]
        simp
  · rfl

/-- C8 witness: the refinement applied at the concrete three-entry scenario
(all three most recent entries carry a sleep value). -/
theorem detectHealthFlags_rules_witness :
    detectHealthFlags
        [{ date := 3, sleep := some 5, heartRate := some 60, water := some 4,
           steps := some 5000 },
         { date := 2, sleep := some 5 }, { date := 1, sleep := some 4 }] {} =
      specDetectHealthFlags
        [{ date := 3, sleep := some 5, heartRate := some 60, water := some 4,
           steps := some 5000 },
         { date := 2, sleep := some 5 }, { date := 1, sleep := some 4 }] {} :=
  detectHealthFlags_rules.1 _ {} (by decide)

/-! ### Helper lemmas for the record store -/

/-- The sort invariant of the stored entry list: strictly descending by
date, so `entries[0]` is the most recent and no two entries share a date. -/
def StrictDescending (l : List Entry) : Prop :=
  l.Pairwise (fun a b => b.date < a.date)

theorem nodup_dates_of_strict (l : List Entry) (h : StrictDescending l) :
    (l.map Entry.date).Nodup := by
  rw [List.Nodup, List.pairwise_map]
  exact h.imp (fun hlt => ne_of_gt hlt)

theorem strict_of_sorted_nodup (l : List Entry) (hs : l.Sorted entryDateGe)
    (hn : (l.map Entry.date).Nodup) : StrictDescending l := by
  rw [List.Nodup, List.pairwise_map] at hn
  have hand := hs.and hn
  exact hand.imp (fun h => lt_of_le_of_ne h.1 (fun hh => h.2 hh.symm))

theorem mem_dates_upsert (l : List Entry) (e : Entry) (x : Nat) :
    x ∈ (upsertEntry l e).map Entry.date ↔ x ∈ l.map Entry.date ∨ x = e.date := by
  induction l with
  | nil => simp [upsertEntry]
  | cons a t ih =>
    by_cases hae : a.date = e.date
    · simp only [upsertEntry, if_pos hae, List.map_cons, List.mem_cons, mergeEntry, ih]
      rw [hae]
      tauto
    · simp only [upsertEntry, if_neg hae, List.map_cons, List.mem_cons, ih]
      tauto

theorem nodup_dates_upsert (l : List Entry) (e : Entry)
    (h : (l.map Entry.date).Nodup) : ((upsertEntry l e).map Entry.date).Nodup := by
  induction l with
  | nil => simp [upsertEntry]
  | cons a t ih =>
    simp only [List.map_cons, List.nodup_cons] at h
    obtain ⟨hnotin, hnd⟩ := h
    by_cases hae : a.date = e.date
    · simp only [upsertEntry, if_pos hae, List.map_cons, List.nodup_cons, mergeEntry]
      refine ⟨?_, hnd⟩
      rw [← hae]
      exact hnotin
    · simp only [upsertEntry, if_neg hae, List.map_cons, List.nodup_cons]
      refine ⟨?_, ih hnd⟩
      rw [mem_dates_upsert]
      rintro (hmem | heq)
      · exact hnotin hmem
      · exact hae heq

theorem nodup_dates_saveEntry (doc : HealthDoc) (e : Entry)
    (hnd : (doc.entries.map Entry.date).Nodup) :
    ((saveEntry doc e).entries.map Entry.date).Nodup := by
  have hperm : (saveEntry doc e).entries.Perm (upsertEntry doc.entries e) :=
    List.perm_insertionSort entryDateGe _
  exact ((hperm.map Entry.date).nodup_iff).mpr (nodup_dates_upsert _ e hnd)

/-- C4. On a well-formed document (entries strictly descending by date),
both `saveEntry` and `deleteEntry` preserve the invariant: afterwards the
entries list is sorted strictly descending by date and contains no two
entries with the same date. -/
theorem saveEntry_deleteEntry_sort_invariant (doc : HealthDoc) (e : Entry) (d : Nat)
    (h : StrictDescending doc.entries) :
    StrictDescending (saveEntry doc e).entries ∧
      ((saveEntry doc e).entries.map Entry.date).Nodup ∧
      StrictDescending (deleteEntry doc d).entries ∧
      ((deleteEntry doc d).entries.map Entry.date).Nodup := by
  have hnd0 : (doc.entries.map Entry.date).Nodup := nodup_dates_of_strict _ h
  have hnd1 : ((saveEntry doc e).entries.map Entry.date).Nodup :=
    nodup_dates_saveEntry doc e hnd0
  have hsorted : (saveEntry doc e).entries.Sorted entryDateGe :=
    List.sorted_insertionSort entryDateGe _
  have hdel : StrictDescending (deleteEntry doc d).entries :=
    List.Pairwise.sublist (List.filter_sublist _) h
  exact ⟨strict_of_sorted_nodup _ hsorted hnd1, hnd1, hdel, nodup_dates_of_strict _ hdel⟩

/-- C4 witness: the invariant theorem applied to a concrete two-entry
document. -/
theorem saveEntry_deleteEntry_sort_invariant_witness :
    StrictDescending (saveEntry ⟨.obj [], {}, .obj [], [⟨7, none, none, none, none, none, none, none⟩, ⟨2, none, none, none, none, none, none, none⟩]⟩ ⟨4, none, none, none, none, none, none, none⟩).entries ∧
      ((saveEntry ⟨.obj [], {}, .obj [], [⟨7, none, none, none, none, none, none, none⟩, ⟨2, none, none, none, none, none, none, none⟩]⟩ ⟨4, none, none, none, none, none, none, none⟩).entries.map Entry.date).Nodup ∧
      StrictDescending (deleteEntry ⟨.obj [], {}, .obj [], [⟨7, none, none, none, none, none, none, none⟩, ⟨2, none, none, none, none, none, none, none⟩]⟩ 7).entries ∧
      ((deleteEntry ⟨.obj [], {}, .obj [], [⟨7, none, none, none, none, none, none, none⟩, ⟨2, none, none, none, none, none, none, none⟩]⟩ 7).entries.map Entry.date).Nodup :=
  saveEntry_deleteEntry_sort_invariant _ _ _
    (by constructor
        · intro b hb
          simp only [List.mem_singleton] at hb
          subst hb
          norm_num
        · simp [StrictDescending])

/-- Number of stored entries carrying a given date. -/
def countDate (l : List Entry) (d : Nat) : Nat :=
  (l.filter (fun x => x.date == d)).length

theorem filter_date_eq_nil (l : List Entry) (d : Nat) (h : d ∉ l.map Entry.date) :
    l.filter (fun x => x.date == d) = [] := by
  rw [List.filter_eq_nil_iff]
  intro a ha
  simp only [beq_iff_eq]
  intro had
  exact h (had ▸ List.mem_map_of_mem Entry.date ha)

/-- The entry that `saveEntry` stores under `entry.date`: the shallow merge
over an existing same-date entry, or the new entry itself. -/
def upsertResult (l : List Entry) (e : Entry) : Entry :=
  match l.find? (fun x => x.date == e.date) with
  | some old => mergeEntry old e
  | none => e

theorem filter_upsert (l : List Entry) (e : Entry)
    (h : (l.map Entry.date).Nodup) :
    (upsertEntry l e).filter (fun x => x.date == e.date) = [upsertResult l e] := by
  induction l with
  | nil => simp [upsertEntry, upsertResult]
  | cons a t ih =>
    simp only [List.map_cons, List.nodup_cons] at h
    obtain ⟨hnotin, hnd⟩ := h
    by_cases hae : a.date = e.date
    · have hpa : (a.date == e.date) = true := beq_iff_eq.mpr hae
      simp only [upsertEntry, if_pos hae, upsertResult, List.find?_cons, hpa]
      have hme : (mergeEntry a e).date == e.date := beq_iff_eq.mpr rfl
      rw [show List.filter (fun x => x.date == e.date) (mergeEntry a e :: t) =
            mergeEntry a e :: List.filter (fun x => x.date == e.date) t from
          List.filter_cons_of_pos hme,
        filter_date_eq_nil t e.date (hae ▸ hnotin)]
    · have hpa : (a.date == e.date) = false := beq_eq_false_iff_ne.mpr hae
      simp only [upsertEntry, if_neg hae, upsertResult, List.find?_cons, hpa]
      rw [List.filter_cons_of_neg (by simp [hpa])]
      exact ih hnd

theorem find?_eq_of_unique (p : Entry → Bool) (l : List Entry) (x : Entry)
    (hmem : x ∈ l) (hx : p x = true) (huniq : ∀ y ∈ l, p y = true → y = x) :
    l.find? p = some x := by
  induction l with
  | nil => cases hmem
  | cons a t ih =>
    by_cases hpa : p a = true
    · rw [List.find?_cons_of_pos _ hpa, huniq a (List.mem_cons_self a t) hpa]
    · rw [List.find?_cons_of_neg _ hpa]
      rcases List.mem_cons.mp hmem with rfl | hmt
      · exact absurd hx hpa
      · exact ih hmt (fun y hy => huniq y (List.mem_cons_of_mem a hy))

theorem filter_saveEntry (doc : HealthDoc) (e : Entry)
    (hnd : (doc.entries.map Entry.date).Nodup) :
    (saveEntry doc e).entries.filter (fun x => x.date == e.date) =
      [upsertResult doc.entries e] := by
  have hperm : (saveEntry doc e).entries.Perm (upsertEntry doc.entries e) :=
    List.perm_insertionSort entryDateGe _
  have hfp := hperm.filter (fun x => x.date == e.date)
  rw [filter_upsert doc.entries e hnd] at hfp
  exact List.perm_singleton.mp hfp

theorem getEntryByDate_saveEntry (doc : HealthDoc) (e : Entry)
    (hnd : (doc.entries.map Entry.date).Nodup) :
    getEntryByDate (saveEntry doc e) e.date = some (upsertResult doc.entries e) := by
  have hf := filter_saveEntry doc e hnd
  have hmemf : upsertResult doc.entries e ∈
      (saveEntry doc e).entries.filter (fun x => x.date == e.date) := by
    rw [hf]
    exact List.mem_singleton.mpr rfl
  apply find?_eq_of_unique
  · exact (List.mem_filter.mp hmemf).1
  · exact (List.mem_filter.mp hmemf).2
  · intro y hy hpy
    have : y ∈ (saveEntry doc e).entries.filter (fun x => x.date == e.date) :=
      List.mem_filter.mpr ⟨hy, hpy⟩
    rw [hf] at this
    exact List.mem_singleton.mp this

theorem upsert_eq_append (l : List Entry) (e : Entry)
    (h : l.find? (fun x => x.date == e.date) = none) :
    upsertEntry l e = l ++ [e] := by
  induction l with
  | nil => simp [upsertEntry]
  | cons a t ih =>
    rw [List.find?_eq_none] at h
    have hae : a.date ≠ e.date := by
      have := h a (List.mem_cons_self a t)
      simpa using this
    rw [upsertEntry, if_neg hae, ih (List.find?_eq_none.mpr
      (fun x hx => h x (List.mem_cons_of_mem a hx)))]
    rfl

/-- C5. `saveEntry` is an upsert keyed on `entry.date`: on a document with
no duplicate dates, after the save exactly one stored entry carries
`entry.date`; if an entry with that date already existed the stored entry
is the shallow merge of old then new (fields present on the new entry win,
fields it lacks keep their prior values — the content of `mergeEntry`),
otherwise the new entry joins the list (the new entry list is a
permutation of the old one plus the entry, which the sort then orders); and
saving the same entry twice still leaves exactly one entry for that date. -/
theorem saveEntry_upsert_semantics (doc : HealthDoc) (e : Entry)
    (hnd : (doc.entries.map Entry.date).Nodup) :
    countDate (saveEntry doc e).entries e.date = 1 ∧
      (∀ old, getEntryByDate doc e.date = some old →
        getEntryByDate (saveEntry doc e) e.date = some (mergeEntry old e)) ∧
      (getEntryByDate doc e.date = none →
        getEntryByDate (saveEntry doc e) e.date = some e ∧
        (saveEntry doc e).entries.Perm (e :: doc.entries)) ∧
      countDate (saveEntry (saveEntry doc e) e).entries e.date = 1 := by
  refine ⟨?_, ?_, ?_, ?_⟩
  · rw [countDate, filter_saveEntry doc e hnd]
    rfl
  · intro old hold
    rw [getEntryByDate] at hold
    rw [getEntryByDate_saveEntry doc e hnd, upsertResult, hold]
  · intro hnone
    constructor
    · rw [getEntryByDate] at hnone
      rw [getEntryByDate_saveEntry doc e hnd, upsertResult, hnone]
    · have hperm : (saveEntry doc e).entries.Perm (upsertEntry doc.entries e) :=
        List.perm_insertionSort entryDateGe _
      rw [upsert_eq_append doc.entries e hnone] at hperm
      exact hperm.trans (List.perm_append_singleton e doc.entries)
  · rw [countDate, filter_saveEntry (saveEntry doc e) e (nodup_dates_saveEntry doc e hnd)]
    rfl

/-- C5 witness: saving `{date:2, steps:7}`, then `{date:2, sleep:6}` into a
one-entry document, checking the merge keeps the steps and the count stays
one. -/
theorem saveEntry_upsert_semantics_witness :
    countDate (saveEntry ⟨.obj [], {}, .obj [],
        [⟨2, some 7, none, none, none, none, none, none⟩]⟩
        ⟨2, none, none, some 6, none, none, none, none⟩).entries 2 = 1 ∧
      getEntryByDate (saveEntry ⟨.obj [], {}, .obj [],
          [⟨2, some 7, none, none, none, none, none, none⟩]⟩
          ⟨2, none, none, some 6, none, none, none, none⟩) 2 =
        some ⟨2, some 7, none, some 6, none, none, none, none⟩ := by
  have h := saveEntry_upsert_semantics ⟨.obj [], {}, .obj [],
      [⟨2, some 7, none, none, none, none, none, none⟩]⟩
      ⟨2, none, none, some 6, none, none, none, none⟩ (by simp)
  refine ⟨h.1, ?_⟩
  exact h.2.1 ⟨2, some 7, none, none, none, none, none, none⟩ rfl

theorem range_pred_eq_date_pred (d : Nat) (e : Entry) :
    (decide (d ≤ e.date) && decide (e.date ≤ d)) = (e.date == d) := by
  by_cases h : e.date = d
  · simp [h]
  · rcases Nat.lt_or_ge e.date d with hlt | hge
    · rw [decide_eq_false (not_le.mpr hlt), Bool.false_and]
      exact (beq_eq_false_iff_ne.mpr h).symm
    · have hgt : d < e.date := lt_of_le_of_ne hge (fun hh => h hh.symm)
      rw [decide_eq_false (not_le.mpr hgt), Bool.and_false]
      exact (beq_eq_false_iff_ne.mpr h).symm

/-- C9. `getEntriesInRange` filters inclusively by parsed date comparison:
an entry is in the result iff it is stored and its date lies within the
closed interval `[startDate, endDate]` (so an entry whose date equals a
boundary is included); and when exactly one stored entry has date `d` (of
which `x` is the witness), `getEntriesInRange(d, d)` returns exactly that
entry. -/
theorem getEntriesInRange_boundary (doc : HealthDoc) (s t d : Nat) (x : Entry)
    (hone : doc.entries.filter (fun e => e.date == d) = [x]) :
    (∀ y, y ∈ getEntriesInRange doc s t ↔
      y ∈ doc.entries ∧ s ≤ y.date ∧ y.date ≤ t) ∧
      getEntriesInRange doc d d = [x] := by
  constructor
  · intro y
    simp [getEntriesInRange, List.mem_filter]
  · unfold getEntriesInRange
    rw [List.filter_congr (fun e _ => range_pred_eq_date_pred d e), hone]

/-- C9 witness: a two-entry document queried at the boundary date 3 returns
exactly the matching entry. -/
theorem getEntriesInRange_boundary_witness :
    getEntriesInRange ⟨.obj [], {}, .obj [],
        [⟨5, none, none, none, none, none, none, none⟩,
         ⟨3, none, none, none, none, none, none, none⟩]⟩ 3 3 =
      [⟨3, none, none, none, none, none, none, none⟩] :=
  (getEntriesInRange_boundary ⟨.obj [], {}, .obj [],
      [⟨5, none, none, none, none, none, none, none⟩,
       ⟨3, none, none, none, none, none, none, none⟩]⟩ 3 3 3
    ⟨3, none, none, none, none, none, none, none⟩ rfl).2

/-- The validation predicate of `importJSON`: the payload has a truthy
`entries` property that is an array (the negation of
`!data.entries || !Array.isArray(data.entries)`). -/
def validPayload (data : JValue) : Bool :=
  match data.getProp "entries" with
  | some e => e.truthy && e.isArr
  | none => false

theorem importJSON_none_eq (st : StoreState) :
    importJSON none st = (st, ⟨false, "Unexpected token in JSON"⟩) := rfl

theorem importJSON_some_none (data : JValue) (st : StoreState)
    (hgp : data.getProp "entries" = none) :
    importJSON (some data) st = (st, ⟨false, "Invalid data format"⟩) := by
  unfold importJSON
  dsimp only
  rw [hgp]

theorem importJSON_some_some (data : JValue) (st : StoreState) (ev : JValue)
    (hgp : data.getProp "entries" = some ev) :
    importJSON (some data) st =
      (if ev.truthy && ev.isArr then
        ({ st with stored := some data }, ⟨true, "Data imported successfully"⟩)
      else (st, ⟨false, "Invalid data format"⟩)) := by
  unfold importJSON
  dsimp only
  rw [hgp]

theorem validPayload_none (data : JValue) (hgp : data.getProp "entries" = none) :
    validPayload data = false := by
  unfold validPayload
  rw [hgp]

theorem validPayload_some (data : JValue) (ev : JValue)
    (hgp : data.getProp "entries" = some ev) :
    validPayload data = (ev.truthy && ev.isArr) := by
  unfold validPayload
  rw [hgp]

theorem importJSON_valid (data : JValue) (st : StoreState)
    (hv : validPayload data = true) :
    importJSON (some data) st =
      ({ st with stored := some data }, ⟨true, "Data imported successfully"⟩) := by
  cases hgp : data.getProp "entries" with
  | none =>
    rw [validPayload_none data hgp] at hv
    cases hv
  | some ev =>
    rw [validPayload_some data ev hgp] at hv
    rw [importJSON_some_some data st ev hgp, if_pos hv]

theorem importJSON_invalid (data : JValue) (st : StoreState)
    (hv : validPayload data = false) :
    importJSON (some data) st = (st, ⟨false, "Invalid data format"⟩) := by
  cases hgp : data.getProp "entries" with
  | none => exact importJSON_some_none data st hgp
  | some ev =>
    rw [validPayload_some data ev hgp] at hv
    rw [importJSON_some_some data st ev hgp, if_neg (by rw [hv]; simp)]

/-- C6. `importJSON` rejects any payload whose parse failed or that lacks a
truthy `entries` array, returning a structured `{success:false, message}`
result (never throwing: the embedding is a total function), and every
rejection leaves the stored document exactly as it was; a valid payload
replaces the stored document and yields `{success:true, ...}`. -/
theorem importJSON_validation (parsed : Option JValue) (st : StoreState) :
    ((importJSON parsed st).2.success = false → (importJSON parsed st).1 = st) ∧
      (parsed = none → (importJSON parsed st).2.success = false) ∧
      (∀ data, parsed = some data → validPayload data = false →
        (importJSON parsed st).1 = st ∧ (importJSON parsed st).2.success = false) ∧
      (∀ data, parsed = some data → validPayload data = true →
        (importJSON parsed st).1 = { st with stored := some data } ∧
          (importJSON parsed st).2.success = true) := by
  cases parsed with
  | none =>
    refine ⟨fun _ => by rw [importJSON_none_eq], fun _ => by rw [importJSON_none_eq],
      ?_, ?_⟩
    · intro data h _
      simp at h
    · intro data h _
      simp at h
  | some data =>
    cases hv : validPayload data with
    | false =>
      have hred := importJSON_invalid data st hv
      refine ⟨fun _ => by rw [hred], fun h => by simp at h, ?_, ?_⟩
      · intro d2 hd2 _
        obtain rfl := Option.some.inj hd2
        exact ⟨by rw [hred], by rw [hred]⟩
      · intro d2 hd2 hv2
        obtain rfl := Option.some.inj hd2
        rw [hv] at hv2
        cases hv2
    | true =>
      have hred := importJSON_valid data st hv
      refine ⟨?_, fun h => by simp at h, ?_, ?_⟩
      · intro hsucc
        rw [hred] at hsucc
        simp at hsucc
      · intro d2 hd2 hv2
        obtain rfl := Option.some.inj hd2
        rw [hv] at hv2
        cases hv2
      · intro d2 hd2 _
        obtain rfl := Option.some.inj hd2
        exact ⟨by rw [hred], by rw [hred]⟩

/-- C6 witness: an invalid payload (a bare number, which has no `entries`
property) leaves a populated store untouched with a failure result, while a
valid payload replaces an empty store with a success result. -/
theorem importJSON_validation_witness :
    (importJSON (some (JValue.num 3))
        ⟨some (JValue.obj [("entries", JValue.arr [])])⟩).1 =
      ⟨some (JValue.obj [("entries", JValue.arr [])])⟩ ∧
      (importJSON (some (JValue.num 3))
        ⟨some (JValue.obj [("entries", JValue.arr [])])⟩).2.success = false ∧
      (importJSON (some (JValue.obj [("entries", JValue.arr [])])) ⟨none⟩).1 =
        ⟨some (JValue.obj [("entries", JValue.arr [])])⟩ ∧
      (importJSON (some (JValue.obj [("entries", JValue.arr [])])) ⟨none⟩).2.success
        = true := by
  have h1 := (importJSON_validation (some (JValue.num 3))
    ⟨some (JValue.obj [("entries", JValue.arr [])])⟩).2.2.1 (JValue.num 3) rfl rfl
  have h2 := (importJSON_validation (some (JValue.obj [("entries", JValue.arr [])]))
    ⟨none⟩).2.2.2 (JValue.obj [("entries", JValue.arr [])]) rfl rfl
  exact ⟨h1.1, h1.2, h2.1, h2.2⟩

/-- C7. For every stored well-formed document (one whose `entries` property
is a truthy array), importing the parse of the exported JSON text leaves
the stored document unchanged, with a success result: `exportJSON`
stringifies the stored value, `JSON.parse ∘ JSON.stringify` is the identity
on JSON values, and the valid payload then replaces the document with
itself. -/
theorem exportImport_roundTrip (st : StoreState) (d : JValue)
    (hstored : st.stored = some d) (hvalid : validPayload d = true) :
    (importJSON (exportJSONParsed st) st).1 = st ∧
      (importJSON (exportJSONParsed st) st).2.success = true := by
  obtain ⟨s⟩ := st
  have hs : s = some d := hstored
  subst hs
  have hexp : exportJSONParsed ⟨some d⟩ = some d := rfl
  rw [hexp, importJSON_valid d ⟨some d⟩ hvalid]
  exact ⟨rfl, rfl⟩

/-- C7 witness: the round trip on a concrete document holding an empty
entries array. -/
theorem exportImport_roundTrip_witness :
    (importJSON (exportJSONParsed ⟨some (JValue.obj [("entries", JValue.arr [])])⟩)
        ⟨some (JValue.obj [("entries", JValue.arr [])])⟩).1 =
      ⟨some (JValue.obj [("entries", JValue.arr [])])⟩ ∧
      (importJSON (exportJSONParsed ⟨some (JValue.obj [("entries", JValue.arr [])])⟩)
        ⟨some (JValue.obj [("entries", JValue.arr [])])⟩).2.success = true :=
  exportImport_roundTrip ⟨some (JValue.obj [("entries", JValue.arr [])])⟩
    (JValue.obj [("entries", JValue.arr [])]) rfl rfl

end HealthTracker
